import Mathlib

/-!
# Verification of the cliplink_all clip-processing application

Shallow embedding of the parts of the repository that the verified claims
touch: the front-end `VideoProcessor` component (task polling, the
processing request body, progress/wait-time display, clip time formatting),
the `Dashboard` duration formatter, the i18n language detection module, the
PostgreSQL `clips` schema constraint, and — where the backend pipeline code
itself is absent from the sources — models built from the specification of
the `ClipPipelineOrchestrator` and `SubtitleBurner`.

JavaScript numbers are modelled as rationals (`ℚ`); the claims verified
here do not depend on floating-point rounding.  JavaScript falsiness of
`""`, `0`, `null`/`undefined` is made explicit at each use site.
-/

/-! ## JavaScript semantics helpers -/

/-- JS `Math.floor` on a number, as an integer. -/
def mathFloor (q : ℚ) : ℤ := ⌊q⌋

/-- JS `Math.ceil` on a number, as an integer. -/
def mathCeil (q : ℚ) : ℤ := ⌈q⌉

/-- JS truncation toward zero (the quotient underlying the `%` operator). -/
def jsTrunc (q : ℚ) : ℤ := if 0 ≤ q then ⌊q⌋ else ⌈q⌉

/-- JS remainder `a % b`: `a - b * trunc (a / b)`. -/
def jsMod (a b : ℚ) : ℚ := a - b * (jsTrunc (a / b) : ℚ)

/-- JS `s.padStart(2, '0')`: left-pad a string with `'0'` to length 2. -/
def padStart2 (s : String) : String :=
  if 2 ≤ s.length then s else String.mk (List.replicate (2 - s.length) '0') ++ s

/-- JS `a || b` on strings (`""` is falsy). -/
def jsOrString (a b : String) : String := if a = "" then b else a

/-- JS `a || b` where `a` is a possibly-undefined number (`0` is falsy). -/
def jsOrNum (a : Option ℚ) (b : ℚ) : ℚ :=
  match a with
  | none => b
  | some v => if v = 0 then b else v

/-! ## C8 : the two clip-time formatters

`formatTime` from `VideoProcessor.tsx` and `formatDuration` from
`Dashboard.tsx` are embedded separately, each following its own source
text. -/

/-- `VideoProcessor.tsx` `formatTime`:
`const mins = Math.floor(seconds / 60); const secs = Math.floor(seconds % 60);`
`return mins + ":" + secs.toString().padStart(2, '0')` (template literal). -/
def formatTime (seconds : ℚ) : String :=
  let mins : ℤ := mathFloor (seconds / 60)
  let secs : ℤ := mathFloor (jsMod seconds 60)
  toString mins ++ ":" ++ padStart2 (toString secs)

/-- `Dashboard.tsx` `formatDuration`:
`const mins = Math.floor(seconds / 60); const secs = Math.floor(seconds % 60);`
`return mins + ":" + secs.toString().padStart(2, '0')` (template literal). -/
def formatDuration (seconds : ℚ) : String :=
  let mins : ℤ := mathFloor (seconds / 60)
  let secs : ℤ := mathFloor (jsMod seconds 60)
  toString mins ++ ":" ++ padStart2 (toString secs)

lemma jsTrunc_nonneg (q : ℚ) (h : 0 ≤ q) : jsTrunc q = ⌊q⌋ := by
  simp [jsTrunc, h]

lemma jsMod_nonneg_bounds (a : ℚ) (ha : 0 ≤ a) :
    0 ≤ jsMod a 60 ∧ jsMod a 60 < 60 := by
  have hq : (0 : ℚ) ≤ a / 60 := by positivity
  rw [jsMod, jsTrunc_nonneg _ hq]
  have h1 : (⌊a / 60⌋ : ℚ) ≤ a / 60 := Int.floor_le _
  have h2 : a / 60 < (⌊a / 60⌋ : ℚ) + 1 := Int.lt_floor_add_one _
  constructor <;> nlinarith

lemma secs_lt_60 (a : ℚ) (ha : 0 ≤ a) :
    0 ≤ ⌊jsMod a 60⌋ ∧ ⌊jsMod a 60⌋ < 60 := by
  obtain ⟨h0, h1⟩ := jsMod_nonneg_bounds a ha
  constructor
  · exact Int.floor_nonneg.mpr h0
  · have h2 : (⌊jsMod a 60⌋ : ℚ) ≤ jsMod a 60 := Int.floor_le _
    have h3 : (⌊jsMod a 60⌋ : ℚ) < 60 := lt_of_le_of_lt h2 h1
    exact_mod_cast h3

/-- Rendering an integer in `[0, 60)` takes at most two characters. -/
lemma int_toString_short :
    ∀ n : Fin 60, (toString ((n : ℕ) : ℤ)).length ≤ 2 := by decide

lemma padStart2_length (s : String) (h : s.length ≤ 2) :
    (padStart2 s).length = 2 := by
  by_cases hge : 2 ≤ s.length
  · have h2 : s.length = 2 := le_antisymm h hge
    rw [padStart2, if_pos hge, h2]
  · rw [padStart2, if_neg hge, String.length_append]
    have hrep : (String.mk (List.replicate (2 - s.length) '0')).length
        = 2 - s.length := by
      show (List.replicate (2 - s.length) '0').length = 2 - s.length
      exact List.length_replicate _ _
    rw [hrep]
    omega

/-- **C8.** The two clip-time formatters, `formatTime` in `VideoProcessor`
and `formatDuration` in `Dashboard`, compute the same function; for every
non-negative number of seconds `s` both return
`⌊s/60⌋ ++ ":" ++ pad₂ ⌊s mod 60⌋`, and the seconds field is two digits
representing a value in `[0, 59]`. -/
theorem formatTime_eq_formatDuration (s : ℚ) (hs : 0 ≤ s) :
    formatTime s = formatDuration s ∧
    formatTime s =
      toString (⌊s / 60⌋) ++ ":" ++ padStart2 (toString ⌊jsMod s 60⌋) ∧
    0 ≤ ⌊jsMod s 60⌋ ∧ ⌊jsMod s 60⌋ ≤ 59 ∧
    (padStart2 (toString ⌊jsMod s 60⌋)).length = 2 := by
  obtain ⟨h0, h1⟩ := secs_lt_60 s hs
  refine ⟨rfl, rfl, h0, by omega, ?_⟩
  have hfin : (⌊jsMod s 60⌋).toNat < 60 := by omega
  have hcast : ((⌊jsMod s 60⌋).toNat : ℤ) = ⌊jsMod s 60⌋ := by omega
  have hlen := int_toString_short ⟨(⌊jsMod s 60⌋).toNat, hfin⟩
  simp only [Fin.val_mk] at hlen
  rw [hcast] at hlen
  exact padStart2_length _ hlen

/-- **C8 witness.** At 125 seconds both formatters yield `"2:05"`. -/
theorem formatTime_eq_formatDuration_witness :
    (0 : ℚ) ≤ 125 ∧ formatTime 125 = formatDuration 125 ∧ formatTime 125 = "2:05" := by
  have h := formatTime_eq_formatDuration 125 (by norm_num)
  have hf : ⌊(125 : ℚ) / 60⌋ = 2 := by
    rw [Int.floor_eq_iff]; norm_num
  have ht : jsTrunc ((125 : ℚ) / 60) = 2 := by
    rw [jsTrunc, if_pos (by norm_num)]; exact hf
  have hm : jsMod 125 60 = 5 := by
    rw [jsMod, ht]; norm_num
  have hf5 : ⌊(5 : ℚ)⌋ = 5 := by norm_num
  refine ⟨by norm_num, h.1, ?_⟩
  rw [h.2.1, hf, hm, hf5]
  decide

/-! ## C9 : the `ProcessingTask` record and `getWaitTimeDisplay`
(`VideoProcessor.tsx`) -/

/-- The `status` union of the `ProcessingTask` interface:
`'pending' | 'processing' | 'done' | 'failed'`. -/
inductive TaskStatus
  | pending
  | processing
  | done
  | failed
deriving DecidableEq, Repr

/-- One entry of the optional `clips` array of `ProcessingTask`. -/
structure TaskClip where
  id : String
  title : String
  start : ℚ
  «end» : ℚ
  duration : ℚ
  url : Option String
deriving DecidableEq, Repr

/-- The `ProcessingTask` interface of `VideoProcessor.tsx`: the status
record the component polls from `/api/workflow/status/{task_id}`. -/
structure ProcessingTask where
  task_id : String
  status : TaskStatus
  progress : ℚ
  stage : String
  current_step : Option String
  message : String
  clips : Option (List TaskClip)
  error : Option String
deriving DecidableEq, Repr

/-- The `stageTimeMap` literal of `getWaitTimeDisplay`: estimated total
completion time (minutes) per stage. -/
def stageTimeMap : List (String × ℚ) :=
  [("queued", 8), ("init", 8), ("video_info", 7.5), ("download", 7),
   ("transcript", 6), ("analysis", 5), ("parallel_processing", 3),
   ("finalizing", 1), ("azure_upload", 2), ("processing", 6), ("pending", 8)]

/-- JS template-literal rendering of a number with at most one decimal
digit (the only shapes `displayMinutes` can take: integers, or an
integer plus one half, such as `7.5`). -/
def jsNumToString (q : ℚ) : String :=
  if q.den = 1 then toString q.num
  else toString ⌊q⌋ ++ "." ++ toString ((q - (⌊q⌋ : ℚ)) * 10).num

/-- `VideoProcessor.tsx` `getWaitTimeDisplay`: early returns for `done`
and `failed`, then the stage-time lookup (JS `|| 6` default), remaining
time proportional to remaining progress, clamped to `[1, estimatedTotalTime]`,
rendered into one of the wait messages. -/
def getWaitTimeDisplay (task : ProcessingTask) : String :=
  if task.status = TaskStatus.done then "Ready! 🎉"
  else if task.status = TaskStatus.failed then "Failed ❌"
  else
    let currentStage :=
      jsOrString task.stage (jsOrString (task.current_step.getD "") "processing")
    let estimatedTotalTime := jsOrNum (stageTimeMap.lookup currentStage) 6
    let progressPercent := jsOrNum (some task.progress) 0
    let remainingPercent := max 0 (100 - progressPercent)
    let remainingMinutes : ℚ := (mathCeil (estimatedTotalTime * remainingPercent / 100) : ℚ)
    let displayMinutes := max 1 (min remainingMinutes estimatedTotalTime)
    if displayMinutes = 1 then "Almost done! 1 min ⏳"
    else if displayMinutes ≤ 2 then "Wait: " ++ jsNumToString displayMinutes ++ " min ⏳"
    else if displayMinutes ≤ 3 then "Wait: " ++ jsNumToString displayMinutes ++ " min ⏳"
    else if 7 ≤ displayMinutes then "Wait: " ++ jsNumToString displayMinutes ++ " min ⏳"
    else "Wait: " ++ jsNumToString displayMinutes ++ " min ⏳"

lemma lookup_mem_values {α β : Type} [BEq α] :
    ∀ (l : List (α × β)) (k : α) (v : β),
      l.lookup k = some v → v ∈ l.map Prod.snd
  | [], _, _, h => by simp [List.lookup] at h
  | (k2, v2) :: t, k, v, h => by
    rw [List.lookup] at h
    cases hk : (k == k2) with
    | true =>
      rw [hk] at h
      simp only [Option.some.injEq] at h
      simp [h]
    | false =>
      rw [hk] at h
      simp only [List.map_cons, List.mem_cons]
      exact Or.inr (lookup_mem_values t k v h)

/-- Every stage-time value, after the JS `|| 6` default, lies in `[1, 8]`. -/
lemma stageTime_bounds (s : String) :
    1 ≤ jsOrNum (stageTimeMap.lookup s) 6 ∧ jsOrNum (stageTimeMap.lookup s) 6 ≤ 8 := by
  cases hl : stageTimeMap.lookup s with
  | none => rw [jsOrNum]; norm_num
  | some v =>
    have hv := lookup_mem_values _ _ _ hl
    rw [jsOrNum]
    simp only [stageTimeMap, List.map_cons, List.map_nil, List.mem_cons,
      List.not_mem_nil, or_false] at hv
    rcases hv with h|h|h|h|h|h|h|h|h|h|h <;> subst h <;> norm_num

lemma jsOrNum_self (p : ℚ) : jsOrNum (some p) 0 = p := by
  rw [jsOrNum]
  by_cases h : p = 0 <;> simp [h]

/-- **C9.** For a task whose status is neither `done` nor `failed` and whose
progress lies in `[0, 100]`, `getWaitTimeDisplay` reports a wait of
`max 1 (min ⌈T * (100 − progress) / 100⌉ T)` minutes, where `T` is the
stage's entry in `stageTimeMap` (JS-default `6`); these minutes always lie
between 1 and 8.  Status `done` yields `"Ready! 🎉"` and `failed` yields
`"Failed ❌"`. -/
theorem getWaitTimeDisplay_spec (task : ProcessingTask) :
    (task.status = TaskStatus.done → getWaitTimeDisplay task = "Ready! 🎉") ∧
    (task.status = TaskStatus.failed → getWaitTimeDisplay task = "Failed ❌") ∧
    (task.status ≠ TaskStatus.done → task.status ≠ TaskStatus.failed →
      0 ≤ task.progress → task.progress ≤ 100 →
      ∃ T dm : ℚ,
        T = jsOrNum (stageTimeMap.lookup (jsOrString task.stage
              (jsOrString (task.current_step.getD "") "processing"))) 6 ∧
        dm = max 1 (min ((⌈T * (100 - task.progress) / 100⌉ : ℤ) : ℚ) T) ∧
        getWaitTimeDisplay task =
          (if dm = 1 then "Almost done! 1 min ⏳"
           else "Wait: " ++ jsNumToString dm ++ " min ⏳") ∧
        1 ≤ dm ∧ dm ≤ 8) := by
  refine ⟨fun h => by rw [getWaitTimeDisplay, if_pos h],
          fun h => by rw [getWaitTimeDisplay, if_neg (by rw [h]; decide), if_pos h],
          fun hd hf h0 h100 => ?_⟩
  refine ⟨_, _, rfl, rfl, ?_, le_max_left _ _, ?_⟩
  · rw [getWaitTimeDisplay, if_neg hd, if_neg hf]
    have hmax : max 0 (100 - jsOrNum (some task.progress) 0) = 100 - task.progress := by
      rw [jsOrNum_self]
      exact max_eq_right (by linarith)
    simp only [hmax, mathCeil]
    split_ifs <;> rfl
  · have hb := stageTime_bounds (jsOrString task.stage
      (jsOrString (task.current_step.getD "") "processing"))
    calc max 1 (min ((⌈jsOrNum (stageTimeMap.lookup (jsOrString task.stage
            (jsOrString (task.current_step.getD "") "processing"))) 6
            * (100 - task.progress) / 100⌉ : ℤ) : ℚ)
          (jsOrNum (stageTimeMap.lookup (jsOrString task.stage
            (jsOrString (task.current_step.getD "") "processing"))) 6))
        ≤ max 1 (jsOrNum (stageTimeMap.lookup (jsOrString task.stage
            (jsOrString (task.current_step.getD "") "processing"))) 6) :=
          max_le_max le_rfl (min_le_right _ _)
      _ ≤ 8 := max_le (by norm_num) hb.2

/-- **C9 witness.** A concrete processing task at stage `download`,
progress 50: the theorem's hypotheses hold and its conclusion instantiates. -/
theorem getWaitTimeDisplay_spec_witness :
    (ProcessingTask.mk "t1" TaskStatus.processing 50 "download" none "msg" none
        none).status ≠ TaskStatus.done ∧
    (ProcessingTask.mk "t1" TaskStatus.processing 50 "download" none "msg" none
        none).status ≠ TaskStatus.failed ∧
    (0 : ℚ) ≤ 50 ∧ (50 : ℚ) ≤ 100 ∧
    (∃ T dm : ℚ,
        T = jsOrNum (stageTimeMap.lookup (jsOrString "download"
              (jsOrString "" "processing"))) 6 ∧
        dm = max 1 (min ((⌈T * (100 - 50) / 100⌉ : ℤ) : ℚ) T) ∧
        getWaitTimeDisplay (ProcessingTask.mk "t1" TaskStatus.processing 50
            "download" none "msg" none none) =
          (if dm = 1 then "Almost done! 1 min ⏳"
           else "Wait: " ++ jsNumToString dm ++ " min ⏳") ∧
        1 ≤ dm ∧ dm ≤ 8) :=
  ⟨by decide, by decide, by norm_num, by norm_num,
    (getWaitTimeDisplay_spec (ProcessingTask.mk "t1" TaskStatus.processing 50
      "download" none "msg" none none)).2.2 (by decide) (by decide)
      (by norm_num) (by norm_num)⟩

/-! ## C10 : language detection (`i18n.ts`) -/

/-- The `Language` union of `i18n.ts`: `'en' | 'ru'` (named `UILanguage`
here because Mathlib already declares `Language`). -/
inductive UILanguage
  | en
  | ru
deriving DecidableEq, Repr

/-- The browser-environment state `detectLanguage` reads: the
`localStorage` entry for `'cliplink_language'` (absent = `null`),
`navigator.language`, `navigator.languages` (absent = `undefined`),
and the resolved timezone. -/
structure BrowserEnv where
  savedLang : Option String
  navigatorLanguage : String
  navigatorLanguages : Option (List String)
  timezone : String
deriving DecidableEq, Repr

/-- JS `String.prototype.includes` on character lists. -/
def listContainsSub (pat : List Char) : List Char → Bool
  | [] => pat.isPrefixOf []
  | c :: t => pat.isPrefixOf (c :: t) || listContainsSub pat t

/-- JS `s.includes(pat)`: substring containment. -/
def strIncludes (s pat : String) : Bool := listContainsSub pat.data s.data

/-- JS `s.startsWith(pat)`. -/
def strStartsWith (s pat : String) : Bool := pat.data.isPrefixOf s.data

/-- JS `s.toLowerCase()` (the language tags involved are ASCII). -/
def asciiToLower (s : String) : String := String.mk (s.data.map Char.toLower)

/-- The per-language test of `detectLanguage`'s loop body: the lowercased
tag starts with `'ru'`, contains `'ru-'`, or equals one of the five
related-language codes `be`/`kk`/`ky`/`uz`/`uk`. -/
def isRussianLang (lang : String) : Bool :=
  let normalizedLang := asciiToLower lang
  strStartsWith normalizedLang "ru" ||
  strIncludes normalizedLang "ru-" ||
  decide (normalizedLang = "be") ||
  decide (normalizedLang = "kk") ||
  decide (normalizedLang = "ky") ||
  decide (normalizedLang = "uz") ||
  decide (normalizedLang = "uk")

/-- The `russianTimezones` literal of `detectLanguage`.  The timezone
branch only stores a hint under `'cliplink_timezone_suggests_ru'` for the
welcome modal; it never changes `detectLanguage`'s return value. -/
def russianTimezones : List String :=
  ["Europe/Moscow", "Europe/Kaliningrad", "Europe/Samara", "Europe/Volgograd",
   "Asia/Yekaterinburg", "Asia/Omsk", "Asia/Krasnoyarsk", "Asia/Irkutsk",
   "Asia/Yakutsk", "Asia/Vladivostok", "Asia/Magadan", "Asia/Kamchatka",
   "Asia/Almaty", "Asia/Bishkek", "Asia/Tashkent", "Asia/Dushanbe",
   "Europe/Kiev", "Europe/Minsk"]

/-- `i18n.ts` `detectLanguage`.  Priority 1: a saved explicit choice of
`'en'`/`'ru'` is returned as-is (JS truthiness: `null` and `""` fail the
guard).  Priority 2: the first Russian-family tag among
`navigator.languages || [navigator.language]` yields `'ru'`
(a first-match loop, equivalent to `List.any`).  Priority 3 (the timezone
check) only writes the `localStorage` hint and falls through to the
default `'en'`. -/
def detectLanguage (env : BrowserEnv) : UILanguage :=
  let savedLang := env.savedLang.getD ""
  if savedLang ≠ "" ∧ (savedLang = "en" ∨ savedLang = "ru") then
    if savedLang = "ru" then UILanguage.ru else UILanguage.en
  else
    let browserLangs := env.navigatorLanguages.getD [env.navigatorLanguage]
    if browserLangs.any isRussianLang then UILanguage.ru else UILanguage.en

/-- The Russian-family set exactly as the claim words it: prefix `'ru'`,
or exactly `'be'`, `'kk'`, `'ky'`, `'uz'`, `'uk'` — with no lowercasing
and no `'ru-'` substring test. -/
def claimRussianFamily (lang : String) : Bool :=
  strStartsWith lang "ru" ||
  decide (lang = "be") ||
  decide (lang = "kk") ||
  decide (lang = "ky") ||
  decide (lang = "uz") ||
  decide (lang = "uk")

/-- **C10 counterexample.**  With no saved language and browser language
list `["az-ru-Cyrl"]`, `detectLanguage` returns `'ru'` (the lowercased tag
contains the substring `'ru-'`), although the tag is not in the claim's
Russian-family set (its prefix is `'az'`), so the claimed equivalence fails
at this input. -/
theorem detectLanguage_claim_counterexample :
    ¬ ((detectLanguage (BrowserEnv.mk none "az-ru-Cyrl" (some ["az-ru-Cyrl"]) "UTC")
          = UILanguage.ru) ↔
        (["az-ru-Cyrl"].any claimRussianFamily = true)) := by decide

/-- **C10 (amended).**  A saved `'en'` or `'ru'` is returned as-is,
independent of the browser languages and timezone; with no valid saved
value, `detectLanguage` returns `'ru'` iff some entry of
`navigator.languages || [navigator.language]` has a lowercased form that
starts with `'ru'`, contains the substring `'ru-'`, or is exactly one of
`'be'`, `'kk'`, `'ky'`, `'uz'`, `'uk'`; otherwise it returns `'en'`. -/
theorem detectLanguage_amended (env : BrowserEnv) :
    (env.savedLang = some "en" → detectLanguage env = UILanguage.en) ∧
    (env.savedLang = some "ru" → detectLanguage env = UILanguage.ru) ∧
    ((∀ s, env.savedLang = some s → ¬ (s = "en" ∨ s = "ru")) →
      ((detectLanguage env = UILanguage.ru ↔
          ∃ lang ∈ env.navigatorLanguages.getD [env.navigatorLanguage],
            isRussianLang lang = true) ∧
        (detectLanguage env = UILanguage.en ↔
          ∀ lang ∈ env.navigatorLanguages.getD [env.navigatorLanguage],
            isRussianLang lang = false))) := by
  refine ⟨fun h => ?_, fun h => ?_, fun hinv => ?_⟩
  · rw [detectLanguage, h]
    split_ifs with h1 h2
    · exact absurd h2 (by decide)
    · rfl
    · exact absurd (by decide) h1
  · rw [detectLanguage, h]
    split_ifs with h1 h2
    · rfl
    · exact absurd (by decide) h2
    · exact absurd (by decide) h1
  have hguard : ¬ (env.savedLang.getD "" ≠ "" ∧
      (env.savedLang.getD "" = "en" ∨ env.savedLang.getD "" = "ru")) := by
    cases hs : env.savedLang with
    | none => simp
    | some s =>
      have := hinv s hs
      simp only [Option.getD_some]
      tauto
  rw [detectLanguage, if_neg hguard]
  constructor
  · constructor
    · intro h
      by_cases hany : (env.navigatorLanguages.getD [env.navigatorLanguage]).any
          isRussianLang = true
      · simpa [List.any_eq_true] using hany
      · rw [if_neg hany] at h
        cases h
    · intro h
      rw [if_pos (by simpa [List.any_eq_true] using h)]
  · constructor
    · intro h lang hmem
      by_cases hany : (env.navigatorLanguages.getD [env.navigatorLanguage]).any
          isRussianLang = true
      · rw [if_pos hany] at h
        cases h
      · rw [List.any_eq_true] at hany
        push_neg at hany
        have := hany lang hmem
        simpa using this
    · intro h
      have hany : ¬ (env.navigatorLanguages.getD [env.navigatorLanguage]).any
          isRussianLang = true := by
        rw [List.any_eq_true]
        push_neg
        intro lang hmem
        simp [h lang hmem]
      rw [if_neg hany]

/-- **C10 witness.**  A saved `'en'` wins over a fully Russian browser
environment, and without a saved value a `ru-RU` entry in the language
list yields `'ru'`. -/
theorem detectLanguage_amended_witness :
    (BrowserEnv.mk (some "en") "ru-RU" (some ["ru-RU", "ru"])
        "Europe/Moscow").savedLang = some "en" ∧
    detectLanguage (BrowserEnv.mk (some "en") "ru-RU" (some ["ru-RU", "ru"])
        "Europe/Moscow") = UILanguage.en ∧
    detectLanguage (BrowserEnv.mk none "en-US" (some ["en-US", "ru-RU"])
        "America/New_York") = UILanguage.ru := by
  refine ⟨rfl, (detectLanguage_amended _).1 rfl, ?_⟩
  have h := ((detectLanguage_amended (BrowserEnv.mk none "en-US"
      (some ["en-US", "ru-RU"]) "America/New_York")).2.2
      (fun s hs => by cases hs)).1
  exact h.2 ⟨"ru-RU", by decide, by decide⟩

/-! ## C3 : the processing request configuration (`startVideoProcessing`) -/

/-- JS `s.trim()`: strip leading and trailing whitespace. -/
def jsTrim (s : String) : String :=
  String.mk
    (((s.data.dropWhile Char.isWhitespace).reverse.dropWhile Char.isWhitespace).reverse)

/-- A JSON value of the shapes occurring in the request body. -/
inductive JsonValue
  | str (s : String)
  | boolean (b : Bool)
  | num (q : ℚ)
deriving DecidableEq, Repr

/-- The JSON body `startVideoProcessing` POSTs to
`/api/workflow/process-comprehensive-async`, as a key/value list in
source order. -/
def processingRequestBody (youtubeUrl : String) : List (String × JsonValue) :=
  [("youtube_url", JsonValue.str (jsTrim youtubeUrl)),
   ("quality", JsonValue.str "best"),
   ("create_vertical", JsonValue.boolean true),
   ("smoothing_strength", JsonValue.str "very_high"),
   ("burn_subtitles", JsonValue.boolean true),
   ("font_size", JsonValue.num 15),
   ("export_codec", JsonValue.str "h264")]

/-- **C3 counterexample.**  The request body built for a concrete URL
contains no `subtitle_style` key at all (and does contain `youtube_url`,
which is not one of the claimed configuration options), so the body is not
"exactly" the claimed option set including `subtitle_style`. -/
theorem processingRequestBody_counterexample :
    "subtitle_style" ∉
      (processingRequestBody "https://youtu.be/x").map Prod.fst ∧
    "youtube_url" ∈ (processingRequestBody "https://youtu.be/x").map Prod.fst := by
  constructor <;> decide

/-- **C3 (amended).**  Every processing request body consists of exactly
`youtube_url` (the trimmed input URL) plus the six recognized options
`quality`, `create_vertical`, `smoothing_strength`, `burn_subtitles`,
`font_size` and `export_codec`, each with a value of the stated type
(`smoothing_strength` one of the four recognized strengths, `font_size`
an integer); no `subtitle_style` option is sent. -/
theorem processingRequestBody_amended (youtubeUrl : String) :
    (processingRequestBody youtubeUrl).map Prod.fst =
      ["youtube_url", "quality", "create_vertical", "smoothing_strength",
       "burn_subtitles", "font_size", "export_codec"] ∧
    "subtitle_style" ∉ (processingRequestBody youtubeUrl).map Prod.fst ∧
    (processingRequestBody youtubeUrl).lookup "youtube_url" =
      some (JsonValue.str (jsTrim youtubeUrl)) ∧
    (processingRequestBody youtubeUrl).lookup "quality" =
      some (JsonValue.str "best") ∧
    (processingRequestBody youtubeUrl).lookup "create_vertical" =
      some (JsonValue.boolean true) ∧
    (∃ s, (processingRequestBody youtubeUrl).lookup "smoothing_strength" =
        some (JsonValue.str s) ∧ s ∈ ["low", "medium", "high", "very_high"]) ∧
    (processingRequestBody youtubeUrl).lookup "burn_subtitles" =
      some (JsonValue.boolean true) ∧
    (∃ q : ℚ, (processingRequestBody youtubeUrl).lookup "font_size" =
        some (JsonValue.num q) ∧ q.den = 1) ∧
    (∃ c, (processingRequestBody youtubeUrl).lookup "export_codec" =
        some (JsonValue.str c)) := by
  refine ⟨rfl, ?_, rfl, rfl, rfl, ⟨"very_high", rfl, by decide⟩, rfl,
    ⟨15, rfl, by decide⟩, ⟨"h264", rfl⟩⟩
  rw [show (processingRequestBody youtubeUrl).map Prod.fst =
    ["youtube_url", "quality", "create_vertical", "smoothing_strength",
     "burn_subtitles", "font_size", "export_codec"] from rfl]
  decide

/-! ## C5 : clip-record time invariants (schema `clips` table and the
front-end duration derivations) -/

/-- The time-related columns of a `clips` table row. -/
structure ClipRecord where
  start_time : ℚ
  end_time : ℚ
  duration : ℚ
deriving DecidableEq, Repr

/-- The schema constraint `check_clip_times`:
`CHECK (start_time >= 0 AND end_time > start_time AND duration > 0)`. -/
def check_clip_times (r : ClipRecord) : Bool :=
  decide (0 ≤ r.start_time) && decide (r.start_time < r.end_time) &&
  decide (0 < r.duration)

/-- `VideoProcessor.tsx` `fetchUserVideos`: the displayed clip duration,
`clip.duration || (clip.end_time - clip.start_time)` (JS `||`: a missing
or zero stored duration falls back to the derived difference). -/
def displayedDuration (storedDuration : Option ℚ) (startTime endTime : ℚ) : ℚ :=
  jsOrNum storedDuration (endTime - startTime)

/-- `VideoProcessor.tsx` `checkForActiveTask`: times of a clip restored
from a completed task; missing segment fields default to `start = 0`,
`end = 60`, `duration = end − start`. -/
def restoredClipTimes (segStart segEnd segDuration : Option ℚ) : ℚ × ℚ × ℚ :=
  let startTime := jsOrNum segStart 0
  let endTime := jsOrNum segEnd 60
  let duration := jsOrNum segDuration (endTime - startTime)
  (startTime, endTime, duration)

/-- **C5 counterexample.**  The row `(start 0, end 60, duration 5)`
satisfies the schema's `check_clip_times` constraint, yet its stored
duration differs from `end − start`: the code does not enforce the claimed
`duration = end − start` invariant on clip records (nor any bound by the
source video's duration — the `videos` table stores no duration at all). -/
theorem clipTimes_claim_counterexample :
    check_clip_times (ClipRecord.mk 0 60 5) = true ∧
    (ClipRecord.mk 0 60 5).duration ≠
      (ClipRecord.mk 0 60 5).end_time - (ClipRecord.mk 0 60 5).start_time := by
  refine ⟨by decide, by norm_num⟩

/-- **C5 (amended).**  Every clip record accepted by the schema satisfies
`0 ≤ start < end` and `duration > 0`; `duration = end − start` is not
enforced on stored records, but both front-end derivations compute
`duration = end − start` whenever the stored/reported duration is absent. -/
theorem clipTimes_amended (r : ClipRecord) (h : check_clip_times r = true) :
    (0 ≤ r.start_time ∧ r.start_time < r.end_time ∧ 0 < r.duration) ∧
    (∀ s e : ℚ, displayedDuration none s e = e - s) ∧
    (∀ ss se : Option ℚ,
      (restoredClipTimes ss se none).2.2 =
        (restoredClipTimes ss se none).2.1 - (restoredClipTimes ss se none).1) := by
  refine ⟨?_, fun s e => rfl, fun ss se => rfl⟩
  simp only [check_clip_times, Bool.and_eq_true, decide_eq_true_eq] at h
  exact ⟨h.1.1, h.1.2, h.2⟩

/-- **C5 witness.**  The row `(10, 40, 30)` passes the constraint and the
amended invariants hold for it. -/
theorem clipTimes_amended_witness :
    check_clip_times (ClipRecord.mk 10 40 30) = true ∧
    (0 ≤ (ClipRecord.mk 10 40 30).start_time ∧
      (ClipRecord.mk 10 40 30).start_time < (ClipRecord.mk 10 40 30).end_time ∧
      0 < (ClipRecord.mk 10 40 30).duration) := by
  have h : check_clip_times (ClipRecord.mk 10 40 30) = true := by decide
  exact ⟨h, (clipTimes_amended (ClipRecord.mk 10 40 30) h).1⟩

/-! ## C6 : bounded consecutive-retry policy (`pollTaskProgress`) -/

/-- `maxRetries` in `pollTaskProgress`. -/
def maxRetries : ℕ := 5

/-- One tick of the 2-second poll interval: the status fetch for the same
`taskId` either succeeds with a `ProcessingTask` payload or throws. -/
inductive PollOutcome
  | ok (data : ProcessingTask)
  | err
deriving DecidableEq, Repr

/-- The state of one `pollTaskProgress` loop: the `retryCount` variable,
whether `clearInterval` has run (`stopped`), the last stored task
(`setCurrentTask` / `localStorage`), and whether the max-retries error was
surfaced through `setError` (`escalated`). -/
structure PollState where
  retryCount : ℕ
  stopped : Bool
  current : Option ProcessingTask
  escalated : Bool
deriving DecidableEq, Repr

/-- The loop starts with `retryCount = 0`, interval live, nothing stored. -/
def initialPollState : PollState :=
  { retryCount := 0, stopped := false, current := none, escalated := false }

/-- One interval tick of `pollTaskProgress`.  Once `clearInterval` has
run (`stopped`) the callback no longer fires and the state is final.
Otherwise a successful response resets `retryCount` to 0, stores the
payload and stops the interval on a terminal status (`done`/`failed`);
a thrown error increments `retryCount` and, once `retryCount >= maxRetries`,
clears the interval and surfaces the error — otherwise polling just
continues. -/
def pollStep (s : PollState) : PollOutcome → PollState
  | PollOutcome.ok data =>
    if s.stopped then s
    else
      { retryCount := 0
        stopped := decide (data.status = TaskStatus.done) ||
          decide (data.status = TaskStatus.failed)
        current := some data
        escalated := s.escalated }
  | PollOutcome.err =>
    if s.stopped then s
    else if maxRetries ≤ s.retryCount + 1 then
      { retryCount := s.retryCount + 1, stopped := true, current := s.current,
        escalated := true }
    else
      { retryCount := s.retryCount + 1, stopped := false, current := s.current,
        escalated := s.escalated }

/-- The poll loop over a sequence of tick outcomes. -/
def pollRun (l : List PollOutcome) : PollState := l.foldl pollStep initialPollState

/-- Longest run of consecutive `err` ticks (`cur` = current run, `m` = best
so far). -/
def errStreakAux : List PollOutcome → ℕ → ℕ → ℕ
  | [], cur, m => max cur m
  | PollOutcome.err :: t, cur, m => errStreakAux t (cur + 1) m
  | PollOutcome.ok _ :: t, cur, m => errStreakAux t 0 (max cur m)

/-- Longest run of consecutive `err` ticks in an outcome sequence. -/
def maxErrStreak (l : List PollOutcome) : ℕ := errStreakAux l 0 0

lemma errStreakAux_ge : ∀ (l : List PollOutcome) (cur m : ℕ),
    max cur m ≤ errStreakAux l cur m
  | [], _, _ => le_rfl
  | PollOutcome.err :: t, cur, m => by
    calc max cur m ≤ max (cur + 1) m := max_le_max (Nat.le_succ cur) le_rfl
      _ ≤ errStreakAux t (cur + 1) m := errStreakAux_ge t (cur + 1) m
  | PollOutcome.ok d :: t, cur, m => by
    calc max cur m ≤ max 0 (max cur m) := le_max_right _ _
      _ ≤ errStreakAux t 0 (max cur m) := errStreakAux_ge t 0 (max cur m)

lemma pollStep_of_stopped (s : PollState) (o : PollOutcome)
    (h : s.stopped = true) : pollStep s o = s := by
  cases o <;> simp [pollStep, h]

lemma pollRun_of_stopped : ∀ (l : List PollOutcome) (s : PollState),
    s.stopped = true → l.foldl pollStep s = s
  | [], _, _ => rfl
  | o :: t, s, h => by
    rw [List.foldl_cons, pollStep_of_stopped s o h]
    exact pollRun_of_stopped t s h

lemma pollRun_escalated_aux : ∀ (l : List PollOutcome) (s : PollState) (cur m : ℕ),
    s.retryCount ≤ cur → s.escalated = false →
    (l.foldl pollStep s).escalated = true → maxRetries ≤ errStreakAux l cur m
  | [], s, cur, m, _, hesc, hrun => by
    rw [List.foldl_nil] at hrun
    rw [hesc] at hrun
    cases hrun
  | o :: t, s, cur, m, hrc, hesc, hrun => by
    by_cases hstop : s.stopped = true
    · rw [pollRun_of_stopped (o :: t) s hstop, hesc] at hrun
      cases hrun
    · rw [Bool.not_eq_true] at hstop
      rw [List.foldl_cons] at hrun
      cases o with
      | ok d =>
        rw [show pollStep s (PollOutcome.ok d) =
            { retryCount := 0
              stopped := decide (d.status = TaskStatus.done) ||
                decide (d.status = TaskStatus.failed)
              current := some d
              escalated := s.escalated } from by simp [pollStep, hstop]] at hrun
        exact pollRun_escalated_aux t
          { retryCount := 0
            stopped := decide (d.status = TaskStatus.done) ||
              decide (d.status = TaskStatus.failed)
            current := some d
            escalated := s.escalated } 0 (max cur m) (Nat.le_refl 0) hesc hrun
      | err =>
        by_cases hge : maxRetries ≤ s.retryCount + 1
        · have h5 : maxRetries ≤ cur + 1 := le_trans hge (by omega)
          calc maxRetries ≤ max (cur + 1) m := le_trans h5 (le_max_left _ _)
            _ ≤ errStreakAux t (cur + 1) m := errStreakAux_ge t (cur + 1) m
        · rw [show pollStep s PollOutcome.err =
            { retryCount := s.retryCount + 1, stopped := false,
              current := s.current, escalated := s.escalated } from by
              simp [pollStep, hstop, hge]] at hrun
          exact pollRun_escalated_aux t
            { retryCount := s.retryCount + 1, stopped := false,
              current := s.current, escalated := s.escalated } (cur + 1) m
            (show s.retryCount + 1 ≤ cur + 1 by omega) hesc hrun

/-- **C6.**  `pollTaskProgress` retries a failed status fetch with the same
inputs (the same `taskId`, polled again on the next tick): a successful
response resets `retryCount` to 0 and never surfaces an error; the error is
escalated (interval cleared, `setError` called) only after the bound of
`maxRetries = 5` consecutive failures — any run that escalates contains at
least 5 consecutive erroneous ticks, exactly 5 consecutive errors escalate,
and fewer than 5 do not. -/
theorem pollTaskProgress_retry_policy (l : List PollOutcome)
    (d : ProcessingTask) (s : PollState) (hs : s.stopped = false) :
    ((pollStep s (PollOutcome.ok d)).retryCount = 0 ∧
      (pollStep s (PollOutcome.ok d)).escalated = s.escalated) ∧
    ((pollRun l).escalated = true → maxRetries ≤ maxErrStreak l) ∧
    (pollRun (List.replicate maxRetries PollOutcome.err)).escalated = true ∧
    (∀ n, n < maxRetries →
      (pollRun (List.replicate n PollOutcome.err)).escalated = false) := by
  refine ⟨?_, ?_, by decide, ?_⟩
  · rw [show pollStep s (PollOutcome.ok d) =
      { retryCount := 0
        stopped := decide (d.status = TaskStatus.done) ||
          decide (d.status = TaskStatus.failed)
        current := some d
        escalated := s.escalated } from by simp [pollStep, hs]]
    exact ⟨rfl, rfl⟩
  · intro h
    exact pollRun_escalated_aux l initialPollState 0 0 le_rfl rfl h
  · intro n hn
    rw [show maxRetries = 5 from rfl] at hn
    interval_cases n <;> decide

/-- **C6 witness.**  From the live initial state, two errors followed by a
success leave no escalation, while 5 straight errors escalate and 4 do
not. -/
theorem pollTaskProgress_retry_policy_witness :
    initialPollState.stopped = false ∧
    ((pollStep initialPollState (PollOutcome.ok
        (ProcessingTask.mk "t1" TaskStatus.processing 10 "download" none "m"
          none none))).retryCount = 0 ∧
      (pollStep initialPollState (PollOutcome.ok
        (ProcessingTask.mk "t1" TaskStatus.processing 10 "download" none "m"
          none none))).escalated = initialPollState.escalated) ∧
    ((pollRun [PollOutcome.err, PollOutcome.err]).escalated = true →
      maxRetries ≤ maxErrStreak [PollOutcome.err, PollOutcome.err]) ∧
    (pollRun (List.replicate maxRetries PollOutcome.err)).escalated = true ∧
    (∀ n, n < maxRetries →
      (pollRun (List.replicate n PollOutcome.err)).escalated = false) :=
  ⟨rfl, (pollTaskProgress_retry_policy [PollOutcome.err, PollOutcome.err]
      (ProcessingTask.mk "t1" TaskStatus.processing 10 "download" none "m"
        none none) initialPollState rfl).1,
    (pollTaskProgress_retry_policy [PollOutcome.err, PollOutcome.err]
      (ProcessingTask.mk "t1" TaskStatus.processing 10 "download" none "m"
        none none) initialPollState rfl).2.1,
    (pollTaskProgress_retry_policy [PollOutcome.err, PollOutcome.err]
      (ProcessingTask.mk "t1" TaskStatus.processing 10 "download" none "m"
        none none) initialPollState rfl).2.2.1,
    (pollTaskProgress_retry_policy [PollOutcome.err, PollOutcome.err]
      (ProcessingTask.mk "t1" TaskStatus.processing 10 "download" none "m"
        none none) initialPollState rfl).2.2.2⟩

/-! ## Spec-modelled pipeline orchestrator

The backend pipeline (`ClipPipelineOrchestrator`, `SubtitleBurner`) is not
among the available sources — only its database schema, documentation and
front-end callers are.  The definitions below are therefore modelled from
the specification text and marked as such. -/

/-- Modelled from the spec (§4.6): the per-segment state machine of the
`ClipPipelineOrchestrator`, whose implementation is missing from the
sources: `pending → extracting → reframing → subtitling → done`, with a
`failed` terminal state reachable from any non-terminal state. -/
inductive SegmentState
  | pending
  | extracting
  | reframing
  | subtitling
  | done
  | failed
deriving DecidableEq, Repr

/-- Modelled from the spec: the next stage entered when the component call
for the current stage completes (`none` for terminal states). -/
def SegmentState.advance : SegmentState → Option SegmentState
  | SegmentState.pending => some SegmentState.extracting
  | SegmentState.extracting => some SegmentState.reframing
  | SegmentState.reframing => some SegmentState.subtitling
  | SegmentState.subtitling => some SegmentState.done
  | SegmentState.done => none
  | SegmentState.failed => none

/-- Modelled from the spec: `done` and `failed` are the terminal states. -/
def SegmentState.isTerminal : SegmentState → Bool
  | SegmentState.done => true
  | SegmentState.failed => true
  | _ => false

/-- Position of each state along the pipeline order (`failed` as the
final sink). -/
def SegmentState.rank : SegmentState → ℕ
  | SegmentState.pending => 0
  | SegmentState.extracting => 1
  | SegmentState.reframing => 2
  | SegmentState.subtitling => 3
  | SegmentState.done => 4
  | SegmentState.failed => 5

/-- Modelled from the spec (§4.6): transitions are driven by completion or
failure of the corresponding component call — either the advance step, or
a failure transition from any non-terminal state. -/
inductive SegmentStep : SegmentState → SegmentState → Prop
  | completes (s t : SegmentState) : s.advance = some t → SegmentStep s t
  | fails (s : SegmentState) : s.isTerminal = false → SegmentStep s SegmentState.failed

/-- **C2.**  Every per-segment status is one of the six values; each
transition either advances to the next stage in the order
`pending → extracting → reframing → subtitling → done` or moves to
`failed`, and strictly increases the pipeline rank (so the status only
advances in order); `failed` has no outgoing transitions and is reachable
from every non-terminal state. -/
theorem segmentStateMachine_spec (s t : SegmentState) (h : SegmentStep s t) :
    (s = SegmentState.pending ∨ s = SegmentState.extracting ∨
      s = SegmentState.reframing ∨ s = SegmentState.subtitling ∨
      s = SegmentState.done ∨ s = SegmentState.failed) ∧
    (t = SegmentState.failed ∨ s.advance = some t) ∧
    s.rank < t.rank ∧
    (∀ u, ¬ SegmentStep SegmentState.failed u) ∧
    (∀ u : SegmentState, u.isTerminal = false → SegmentStep u SegmentState.failed) := by
  refine ⟨by cases s <;> simp, ?_, ?_, ?_, fun u hu => SegmentStep.fails u hu⟩
  · cases h with
    | completes t hadv => exact Or.inr hadv
    | fails hterm => exact Or.inl rfl
  · cases h with
    | completes t hadv =>
      revert hadv
      cases s <;> intro hadv <;> cases hadv <;> decide
    | fails hterm =>
      revert hterm
      cases s <;> intro hterm <;>
        first
          | exact absurd hterm (by decide)
          | decide
  · intro u hstep
    cases hstep with
    | completes t hadv => exact Option.noConfusion hadv
    | fails hterm => exact absurd hterm (by decide)

/-- **C2 witness.**  The first transition `pending → extracting` satisfies
the state-machine properties. -/
theorem segmentStateMachine_spec_witness :
    SegmentStep SegmentState.pending SegmentState.extracting ∧
    (SegmentState.pending.rank < SegmentState.extracting.rank ∧
      (∀ u : SegmentState, u.isTerminal = false →
        SegmentStep u SegmentState.failed)) :=
  ⟨SegmentStep.completes _ _ rfl,
    (segmentStateMachine_spec SegmentState.pending SegmentState.extracting
      (SegmentStep.completes _ _ rfl)).2.2.1,
    (segmentStateMachine_spec SegmentState.pending SegmentState.extracting
      (SegmentStep.completes _ _ rfl)).2.2.2.2⟩

/-- The ClipArtifact data model (§3): the final output of one segment. -/
structure ClipArtifact where
  path : String
  segmentIndex : ℕ
  duration : ℚ
  has_subtitles : Bool
  codec : String
deriving DecidableEq, Repr

/-- Modelled from the spec: the error detail recorded for a failed
segment. -/
structure SegmentError where
  segmentIndex : ℕ
  message : String
deriving DecidableEq, Repr

/-- Modelled from the spec: the outcome of one segment's pipeline — either
`done` with its ClipArtifact, or `failed` with an error record. -/
inductive SegmentOutcome
  | done (artifact : ClipArtifact)
  | failed (error : SegmentError)
deriving DecidableEq, Repr

/-- Whether a segment's pipeline fully reached `done`. -/
def SegmentOutcome.isDone : SegmentOutcome → Bool
  | SegmentOutcome.done _ => true
  | SegmentOutcome.failed _ => false

/-- Modelled from the spec: the three overall task reports. -/
inductive TaskReport
  | completed
  | partiallyCompleted
  | failed
deriving DecidableEq, Repr

/-- Modelled from the spec (§4.6, §7): the final result of a finished
task: the successful ClipArtifacts, the per-segment errors, and the
overall report. -/
structure TaskResult where
  artifacts : List ClipArtifact
  errors : List SegmentError
  report : TaskReport
deriving DecidableEq, Repr

/-- Modelled from the spec (§4.6 "reports the set of successful
ClipArtifacts and the set of per-segment errors", §7 "a task with some
failed segments and some successful ones is reported as partially
completed, not failed, provided at least one segment reaches done"):
aggregation of the per-segment outcomes of a finished task, missing from
the sources. -/
def finishTask (outcomes : List SegmentOutcome) : TaskResult :=
  { artifacts := outcomes.filterMap fun o =>
      match o with
      | SegmentOutcome.done a => some a
      | SegmentOutcome.failed _ => none
    errors := outcomes.filterMap fun o =>
      match o with
      | SegmentOutcome.done _ => none
      | SegmentOutcome.failed e => some e
    report :=
      if outcomes.any SegmentOutcome.isDone then
        if outcomes.all SegmentOutcome.isDone then TaskReport.completed
        else TaskReport.partiallyCompleted
      else TaskReport.failed }

/-- **C1.**  A finished task with at least one segment fully reaching
`done` and at least one failed segment yields a result whose artifact list
is exactly the successful segments' ClipArtifacts and whose error list is
exactly the failed segments' error details, and the task is reported as
partially completed — not failed. -/
theorem finishTask_mixed (outcomes : List SegmentOutcome)
    (a : ClipArtifact) (e : SegmentError)
    (ha : SegmentOutcome.done a ∈ outcomes)
    (he : SegmentOutcome.failed e ∈ outcomes) :
    (∀ x, x ∈ (finishTask outcomes).artifacts ↔ SegmentOutcome.done x ∈ outcomes) ∧
    (∀ x, x ∈ (finishTask outcomes).errors ↔ SegmentOutcome.failed x ∈ outcomes) ∧
    (finishTask outcomes).report = TaskReport.partiallyCompleted ∧
    (finishTask outcomes).report ≠ TaskReport.failed := by
  have hany : outcomes.any SegmentOutcome.isDone = true :=
    List.any_eq_true.mpr ⟨SegmentOutcome.done a, ha, rfl⟩
  have hnall : ¬ outcomes.all SegmentOutcome.isDone = true := by
    intro hall
    have := List.all_eq_true.mp hall (SegmentOutcome.failed e) he
    cases this
  have hreport : (finishTask outcomes).report = TaskReport.partiallyCompleted := by
    show (if outcomes.any SegmentOutcome.isDone then
        if outcomes.all SegmentOutcome.isDone then TaskReport.completed
        else TaskReport.partiallyCompleted
      else TaskReport.failed) = TaskReport.partiallyCompleted
    rw [if_pos hany, if_neg hnall]
  refine ⟨?_, ?_, hreport, by rw [hreport]; decide⟩
  · intro x
    show x ∈ outcomes.filterMap _ ↔ _
    rw [List.mem_filterMap]
    constructor
    · rintro ⟨o, ho, hx⟩
      cases o with
      | done b =>
        simp only [Option.some.injEq] at hx
        subst hx
        exact ho
      | failed _ => cases hx
    · intro hx
      exact ⟨SegmentOutcome.done x, hx, rfl⟩
  · intro x
    show x ∈ outcomes.filterMap _ ↔ _
    rw [List.mem_filterMap]
    constructor
    · rintro ⟨o, ho, hx⟩
      cases o with
      | done _ => cases hx
      | failed f =>
        simp only [Option.some.injEq] at hx
        subst hx
        exact ho
    · intro hx
      exact ⟨SegmentOutcome.failed x, hx, rfl⟩

/-- **C1 witness.**  A two-segment task, one done and one failed, reports
partially completed with the artifact and the error separated. -/
theorem finishTask_mixed_witness :
    SegmentOutcome.done (ClipArtifact.mk "clip_1.mp4" 0 30 true "h264") ∈
      [SegmentOutcome.done (ClipArtifact.mk "clip_1.mp4" 0 30 true "h264"),
       SegmentOutcome.failed (SegmentError.mk 1 "ExtractionFailed")] ∧
    SegmentOutcome.failed (SegmentError.mk 1 "ExtractionFailed") ∈
      [SegmentOutcome.done (ClipArtifact.mk "clip_1.mp4" 0 30 true "h264"),
       SegmentOutcome.failed (SegmentError.mk 1 "ExtractionFailed")] ∧
    (finishTask
      [SegmentOutcome.done (ClipArtifact.mk "clip_1.mp4" 0 30 true "h264"),
       SegmentOutcome.failed (SegmentError.mk 1 "ExtractionFailed")]).report =
      TaskReport.partiallyCompleted :=
  ⟨List.mem_cons_self _ _,
   List.mem_cons_of_mem _ (List.mem_cons_self _ _),
   (finishTask_mixed _ _ _ (List.mem_cons_self _ _)
     (List.mem_cons_of_mem _ (List.mem_cons_self _ _))).2.2.1⟩

/-- Modelled from the spec (§4.5, §7, §8): the subtitle burn stage of the
`SubtitleBurner`, missing from the sources.  On success the chunks are
composited into the vertical clip and the artifact is marked
`has_subtitles`; on failure the pipeline delivers the un-subtitled
vertical clip as a degraded-but-valid result with `has_subtitles = false`
— the segment still succeeds. -/
def burnStage (vertical : ClipArtifact) (burnSucceeds : Bool) : SegmentOutcome :=
  if burnSucceeds then
    SegmentOutcome.done { vertical with has_subtitles := true }
  else
    SegmentOutcome.done { vertical with has_subtitles := false }

lemma finishTask_report_ne_failed (outcomes : List SegmentOutcome)
    (h : outcomes.any SegmentOutcome.isDone = true) :
    (finishTask outcomes).report ≠ TaskReport.failed := by
  have hrep : (finishTask outcomes).report =
      if outcomes.all SegmentOutcome.isDone then TaskReport.completed
      else TaskReport.partiallyCompleted := by
    show (if outcomes.any SegmentOutcome.isDone then
        if outcomes.all SegmentOutcome.isDone then TaskReport.completed
        else TaskReport.partiallyCompleted
      else TaskReport.failed) =
      (if outcomes.all SegmentOutcome.isDone then TaskReport.completed
       else TaskReport.partiallyCompleted)
    rw [if_pos h]
  rw [hrep]
  split_ifs <;> decide

/-- **C4.**  When subtitle burn-in fails, the segment still succeeds: its
final ClipArtifact exists and carries `has_subtitles = false`, every other
field (path, segment, duration, codec) is unchanged from the vertical clip
— so the burn failure changes only the `has_subtitles` flag relative to a
successful burn — and a task containing this segment is never reported
failed. -/
theorem burnFailure_nonFatal (vertical : ClipArtifact)
    (rest : List SegmentOutcome) :
    ∃ a, burnStage vertical false = SegmentOutcome.done a ∧
      a.has_subtitles = false ∧
      a.path = vertical.path ∧ a.segmentIndex = vertical.segmentIndex ∧
      a.duration = vertical.duration ∧ a.codec = vertical.codec ∧
      (∀ b, burnStage vertical true = SegmentOutcome.done b →
        b.path = a.path ∧ b.segmentIndex = a.segmentIndex ∧
        b.duration = a.duration ∧ b.codec = a.codec ∧
        b.has_subtitles ≠ a.has_subtitles) ∧
      (finishTask (SegmentOutcome.done a :: rest)).report ≠ TaskReport.failed := by
  refine ⟨{ vertical with has_subtitles := false }, rfl, rfl, rfl, rfl, rfl, rfl,
    ?_, ?_⟩
  · intro b hb
    have hb2 : ({ vertical with has_subtitles := true } : ClipArtifact) = b := by
      have := hb
      rw [burnStage] at this
      simp only [if_pos] at this
      cases this
      rfl
    subst hb2
    exact ⟨rfl, rfl, rfl, rfl, fun hcontra => Bool.noConfusion hcontra⟩
  · exact finishTask_report_ne_failed _
      (List.any_eq_true.mpr ⟨_, List.mem_cons_self _ _, rfl⟩)

/-- **C4 witness.**  A concrete vertical clip with a failing burn: the
degraded artifact exists with `has_subtitles = false` and the surrounding
task is not failed. -/
theorem burnFailure_nonFatal_witness :
    ∃ a, burnStage (ClipArtifact.mk "vertical_1.mp4" 0 30 false "h264") false =
        SegmentOutcome.done a ∧
      a.has_subtitles = false ∧
      a.path = (ClipArtifact.mk "vertical_1.mp4" 0 30 false "h264").path ∧
      a.segmentIndex =
        (ClipArtifact.mk "vertical_1.mp4" 0 30 false "h264").segmentIndex ∧
      a.duration = (ClipArtifact.mk "vertical_1.mp4" 0 30 false "h264").duration ∧
      a.codec = (ClipArtifact.mk "vertical_1.mp4" 0 30 false "h264").codec ∧
      (∀ b, burnStage (ClipArtifact.mk "vertical_1.mp4" 0 30 false "h264") true =
          SegmentOutcome.done b →
        b.path = a.path ∧ b.segmentIndex = a.segmentIndex ∧
        b.duration = a.duration ∧ b.codec = a.codec ∧
        b.has_subtitles ≠ a.has_subtitles) ∧
      (finishTask [SegmentOutcome.done a]).report ≠ TaskReport.failed := by
  have h := burnFailure_nonFatal (ClipArtifact.mk "vertical_1.mp4" 0 30 false "h264") []
  exact h

/-- Modelled from the spec (§6): the status record the orchestrator keeps
current for the external status API —
`{ task_id, per-segment state, overall percentage, current stage label,
message, error }`. -/
structure StatusRecord where
  task_id : String
  segment_states : List SegmentState
  progress : ℚ
  stage : String
  message : String
  error : Option String
deriving DecidableEq, Repr

/-- Modelled from the spec (§4.6 "writes progress (stage name +
percentage) after every transition"): the status-record update performed
after a stage transition of segment `i`. -/
def writeProgress (r : StatusRecord) (i : ℕ) (s : SegmentState)
    (stage : String) (pct : ℚ) (msg : String) (err : Option String) :
    StatusRecord :=
  { r with
    segment_states := r.segment_states.set i s
    stage := stage
    progress := pct
    message := msg
    error := err }

/-- Modelled from the spec: a poll of the status record reads its current
value (the record is the single source the external status API consumes). -/
def pollStatus (r : StatusRecord) : StatusRecord := r

/-- **C7.**  The status record carries exactly the claimed fields —
task id, per-segment state, overall percentage, current stage label,
message and error — and is kept current: a poll performed after any stage
transition observes that transition's values (the new per-segment state,
stage label, percentage, message and error, under the unchanged task id);
on the consumer side, every successful poll tick stores exactly the
fetched record. -/
theorem statusRecord_current (r : StatusRecord) (i : ℕ) (s : SegmentState)
    (stage : String) (pct : ℚ) (msg : String) (err : Option String)
    (hi : i < r.segment_states.length) :
    (pollStatus (writeProgress r i s stage pct msg err)).task_id = r.task_id ∧
    (pollStatus (writeProgress r i s stage pct msg err)).segment_states[i]? =
      some s ∧
    (pollStatus (writeProgress r i s stage pct msg err)).progress = pct ∧
    (pollStatus (writeProgress r i s stage pct msg err)).stage = stage ∧
    (pollStatus (writeProgress r i s stage pct msg err)).message = msg ∧
    (pollStatus (writeProgress r i s stage pct msg err)).error = err ∧
    (∀ (ps : PollState) (d : ProcessingTask), ps.stopped = false →
      (pollStep ps (PollOutcome.ok d)).current = some d) := by
  refine ⟨rfl, ?_, rfl, rfl, rfl, rfl, ?_⟩
  · show (r.segment_states.set i s)[i]? = some s
    exact List.getElem?_set_eq_of_lt s hi
  · intro ps d hps
    rw [show pollStep ps (PollOutcome.ok d) =
      { retryCount := 0
        stopped := decide (d.status = TaskStatus.done) ||
          decide (d.status = TaskStatus.failed)
        current := some d
        escalated := ps.escalated } from by simp [pollStep, hps]]

/-- **C7 witness.**  A two-segment status record after the transition of
segment 0 into `extracting`: the poll observes the new values. -/
theorem statusRecord_current_witness :
    0 < (StatusRecord.mk "t1" [SegmentState.pending, SegmentState.pending]
        0 "init" "starting" none).segment_states.length ∧
    (pollStatus (writeProgress
        (StatusRecord.mk "t1" [SegmentState.pending, SegmentState.pending]
          0 "init" "starting" none)
        0 SegmentState.extracting "extracting" 10 "Extracting segment 1"
        none)).segment_states[0]? = some SegmentState.extracting ∧
    (pollStatus (writeProgress
        (StatusRecord.mk "t1" [SegmentState.pending, SegmentState.pending]
          0 "init" "starting" none)
        0 SegmentState.extracting "extracting" 10 "Extracting segment 1"
        none)).stage = "extracting" :=
  ⟨by decide,
   (statusRecord_current
      (StatusRecord.mk "t1" [SegmentState.pending, SegmentState.pending]
        0 "init" "starting" none)
      0 SegmentState.extracting "extracting" 10 "Extracting segment 1" none
      (by decide)).2.1,
   (statusRecord_current
      (StatusRecord.mk "t1" [SegmentState.pending, SegmentState.pending]
        0 "init" "starting" none)
      0 SegmentState.extracting "extracting" 10 "Extracting segment 1" none
      (by decide)).2.2.2.1⟩
